import Mathlib

/-!
Verification of the derivative-evaluation core of `FGAccelerations.cpp`
(JSBSim).  The C++ double arithmetic is shallowly embedded over `ℚ`
(exact field arithmetic); 3-vectors, 3x3 matrices and quaternions are
records of rationals, and the per-tick mutable members of the
`FGAccelerations` object form the record `AccelState`.  The iterative
friction resolver is embedded with explicit fuel (the fixed 50-sweep cap
of the source) and lists of rationals for the Lagrange multipliers.
-/

namespace JSBSim

/-- A body-frame 3-vector (`FGColumnVector3`). -/
structure Vec3 where
  x : ℚ
  y : ℚ
  z : ℚ
deriving DecidableEq, Repr

/-- The zero vector (`FGColumnVector3::InitMatrix` result). -/
def Vec3.zero : Vec3 := ⟨0, 0, 0⟩

instance : Add Vec3 := ⟨fun u v => ⟨u.x + v.x, u.y + v.y, u.z + v.z⟩⟩

instance : Sub Vec3 := ⟨fun u v => ⟨u.x - v.x, u.y - v.y, u.z - v.z⟩⟩

instance : SMul ℚ Vec3 := ⟨fun c v => ⟨c * v.x, c * v.y, c * v.z⟩⟩

/-- Componentwise division of a vector by a scalar (`FGColumnVector3::operator/`). -/
def Vec3.sdiv (v : Vec3) (c : ℚ) : Vec3 := ⟨v.x / c, v.y / c, v.z / c⟩

/-- `DotProduct` of `FGColumnVector3`. -/
def DotProduct (u v : Vec3) : ℚ := u.x * v.x + u.y * v.y + u.z * v.z

/-- Cross product: `FGColumnVector3::operator*(const FGColumnVector3&)`. -/
def Vec3.cross (u v : Vec3) : Vec3 :=
  ⟨u.y * v.z - u.z * v.y, u.z * v.x - u.x * v.z, u.x * v.y - u.y * v.x⟩

/-- A 3x3 matrix (`FGMatrix33`), stored by rows. -/
structure FGMatrix33 where
  r1 : Vec3
  r2 : Vec3
  r3 : Vec3
deriving DecidableEq, Repr

/-- Matrix-vector product: `FGMatrix33::operator*(const FGColumnVector3&)`. -/
def FGMatrix33.mulVec (M : FGMatrix33) (v : Vec3) : Vec3 :=
  ⟨DotProduct M.r1 v, DotProduct M.r2 v, DotProduct M.r3 v⟩

/-- A quaternion (`FGQuaternion`), scalar part first. -/
structure FGQuaternion where
  w : ℚ
  x : ℚ
  y : ℚ
  z : ℚ
deriving DecidableEq, Repr

/-- Modelled from the spec: `FGQuaternion::GetQDot` (declared in the headers,
which are not part of the sources here) computes the attitude derivative as
the quaternion multiplied by the angular-velocity quaternion form, scaled by
one half: `(1/2) * q * (0, omega)`. -/
def FGQuaternion.GetQDot (q : FGQuaternion) (ω : Vec3) : FGQuaternion :=
  ⟨(-1 / 2 : ℚ) * (q.x * ω.x + q.y * ω.y + q.z * ω.z),
   (1 / 2 : ℚ) * (q.w * ω.x + q.y * ω.z - q.z * ω.y),
   (1 / 2 : ℚ) * (q.w * ω.y + q.z * ω.x - q.x * ω.z),
   (1 / 2 : ℚ) * (q.w * ω.z + q.x * ω.y - q.y * ω.x)⟩

/-- `FGJSBBase::Constrain(min, value, max)`:
`value<min?(min):(value>max?(max):(value))`. -/
def Constrain (lo v hi : ℚ) : ℚ := if v < lo then lo else if v > hi then hi else v

/-- The gravity-model selector value `gtStandard` of the `gravType` enum. -/
def gtStandard : ℕ := 0

/-- The gravity-model selector value `gtWGS84` of the `gravType` enum. -/
def gtWGS84 : ℕ := 1

/-- The per-tick read-only inputs of `FGAccelerations` (the `in` structure,
plus the two terrain velocities obtained from the ground callback and the
`rate` member of `FGModel`). -/
structure Inputs where
  Moment : Vec3
  Force : Vec3
  J : FGMatrix33
  Jinv : FGMatrix33
  Ti2b : FGMatrix33
  Tb2i : FGMatrix33
  Tl2b : FGMatrix33
  Tec2b : FGMatrix33
  qAttitudeECI : FGQuaternion
  vPQRi : Vec3
  vPQR : Vec3
  vUVW : Vec3
  vInertialPosition : Vec3
  vOmegaPlanet : Vec3
  J2Grav : Vec3
  Mass : ℚ
  GAccel : ℚ
  DeltaT : ℚ
  rate : ℕ
  TerrainVelocity : Vec3
  TerrainAngularVelocity : Vec3
deriving DecidableEq, Repr

/-- The mutable members of `FGAccelerations`: the five derivative fields,
the stored gravity and net body accelerations, and the persistent
gravity-model selector `gravType` (an integer settable through the
property tree). -/
structure AccelState where
  vPQRdot : Vec3
  vPQRidot : Vec3
  vUVWdot : Vec3
  vUVWidot : Vec3
  vGravAccel : Vec3
  vBodyAccel : Vec3
  vQtrndot : FGQuaternion
  gravType : ℕ
deriving DecidableEq, Repr

/-- `FGAccelerations::CalculatePQRdot`. -/
def CalculatePQRdot (inp : Inputs) (s : AccelState) : AccelState :=
  let vPQRidot := inp.Jinv.mulVec (inp.Moment - Vec3.cross inp.vPQRi (inp.J.mulVec inp.vPQRi))
  { s with vPQRidot := vPQRidot
         , vPQRdot := vPQRidot - Vec3.cross inp.vPQRi (inp.Ti2b.mulVec inp.vOmegaPlanet) }

/-- `FGAccelerations::CalculateQuatdot`. -/
def CalculateQuatdot (inp : Inputs) (s : AccelState) : AccelState :=
  { s with vQtrndot := inp.qAttitudeECI.GetQDot inp.vPQRi }

/-- `FGAccelerations::CalculateUVWdot`.  The `switch (gravType)` of the
source has cases for `gtStandard` and `gtWGS84` only and no default, so any
other selector value leaves `vGravAccel` at its previous value. -/
def CalculateUVWdot (inp : Inputs) (s : AccelState) : AccelState :=
  let vBodyAccel := Vec3.sdiv inp.Force inp.Mass
  let vUVWdot0 := vBodyAccel -
    Vec3.cross (inp.vPQR + (2 : ℚ) • (inp.Ti2b.mulVec inp.vOmegaPlanet)) inp.vUVW
  let vUVWdot1 := vUVWdot0 -
    inp.Ti2b.mulVec (Vec3.cross inp.vOmegaPlanet (Vec3.cross inp.vOmegaPlanet inp.vInertialPosition))
  let vGravAccel :=
    if s.gravType = gtStandard then inp.Tl2b.mulVec ⟨0, 0, inp.GAccel⟩
    else if s.gravType = gtWGS84 then inp.Tec2b.mulVec inp.J2Grav
    else s.vGravAccel
  { s with vBodyAccel := vBodyAccel
         , vGravAccel := vGravAccel
         , vUVWdot := vUVWdot1 + vGravAccel
         , vUVWidot := inp.Tb2i.mulVec (vBodyAccel + vGravAccel) }

/-- One ground-contact constraint (`FGLGear::LagrangeMultiplier`): the force
and moment Jacobians, the multiplier bounds, and the current (warm-started)
multiplier value. -/
structure LagrangeMultiplier where
  ForceJacobian : Vec3
  MomentJacobian : Vec3
  Min : ℚ
  Max : ℚ
  value : ℚ
deriving DecidableEq, Repr

/-- Default element used for out-of-range list indexing (indices are always
in range in the embedded algorithm, as in the C++ arrays). -/
def dummyLM : LagrangeMultiplier := ⟨Vec3.zero, Vec3.zero, 0, 0, 0⟩

/-- The normalized linear system handed to the projected Gauss-Seidel loop:
dimension `n`, the matrix `a` after division of each row by its diagonal,
the corresponding right-hand side, and the per-multiplier bounds. -/
structure GSSystem where
  n : ℕ
  anorm : ℕ → ℕ → ℚ
  rhs : ℕ → ℚ
  lmin : ℕ → ℚ
  lmax : ℕ → ℚ

/-- The inner `for (int i=0; i < n; i++)` sweep of the Gauss-Seidel loop,
processing the listed indices in order.  Each update reads the current
multiplier list (hence the already-updated values of lower indices), clamps
with `Constrain`, writes the result in place and accumulates the absolute
change into the running `norm`. -/
def sweepGo (S : GSSystem) : List ℕ → List ℚ → ℚ → List ℚ × ℚ
  | [], lam, nrm => (lam, nrm)
  | i :: is, lam, nrm =>
      let lambda0 := lam.getD i 0
      let dlambda := S.rhs i -
        ((List.range S.n).map (fun j => S.anorm i j * lam.getD j 0)).sum
      let li := Constrain (S.lmin i) (lambda0 + dlambda) (S.lmax i)
      sweepGo S is (lam.set i li) (nrm + |li - lambda0|)

/-- One full Gauss-Seidel sweep over indices `0..n-1`, starting from a zero
accumulated norm. -/
def gsSweep (S : GSSystem) (lam : List ℚ) : List ℚ × ℚ :=
  sweepGo S (List.range S.n) lam 0

/-- The outer `for (int iter=0; iter < 50; iter++)` loop: perform a sweep,
exit early if the accumulated sum of absolute changes is strictly below
`1e-5`, otherwise continue with the remaining fuel. -/
def gsLoop (S : GSSystem) : ℕ → List ℚ → List ℚ
  | 0, lam => lam
  | fuel + 1, lam =>
      let r := gsSweep S lam
      if r.2 < 1 / 100000 then r.1 else gsLoop S fuel r.1

/-- The complete projected Gauss-Seidel solve: at most 50 sweeps. -/
def gsSolve (S : GSSystem) (lam : List ℚ) : List ℚ := gsLoop S 50 lam

/-- Assembly of the linear system in `FGAccelerations::ResolveFrictionForces`:
the effective-mass matrix `a[i][j] = JacF_i.(JacF_j/m) + JacM_i.(Jinv JacM_j)`
(computed for `j >= i` and mirrored for `j < i`, exactly as the source copies
`a[i*n+j] = a[j*n+i]`), the rate targets `vdot`/`wdot` including the
`dt > 0` velocity-correction terms, and the right-hand side, all normalized
by the diagonal `a[i][i]`. -/
def mkSystem (dt : ℚ) (contacts : List LagrangeMultiplier) (inp : Inputs)
    (s : AccelState) : GSSystem :=
  let JacF := fun i => (contacts.getD i dummyLM).ForceJacobian
  let JacM := fun i => (contacts.getD i dummyLM).MomentJacobian
  let invMass := 1 / inp.Mass
  let aEntry := fun i j =>
    if i ≤ j then
      DotProduct (JacF i) (invMass • JacF j) + DotProduct (JacM i) (inp.Jinv.mulVec (JacM j))
    else
      DotProduct (JacF j) (invMass • JacF i) + DotProduct (JacM j) (inp.Jinv.mulVec (JacM i))
  let vdot :=
    if dt > 0 then s.vUVWdot + Vec3.sdiv (inp.vUVW - inp.Tec2b.mulVec inp.TerrainVelocity) dt
    else s.vUVWdot
  let wdot :=
    if dt > 0 then s.vPQRdot + Vec3.sdiv (inp.vPQR - inp.Tec2b.mulVec inp.TerrainAngularVelocity) dt
    else s.vPQRdot
  { n := contacts.length
  , anorm := fun i j => aEntry i j * (1 / aEntry i i)
  , rhs := fun i => -(DotProduct (JacF i) vdot + DotProduct (JacM i) wdot) * (1 / aEntry i i)
  , lmin := fun i => (contacts.getD i dummyLM).Min
  , lmax := fun i => (contacts.getD i dummyLM).Max }

/-- The multiplier vector produced by the resolver: projected Gauss-Seidel
on the assembled system, warm-started from the constraints' current values. -/
def frictionLambda (dt : ℚ) (contacts : List LagrangeMultiplier) (inp : Inputs)
    (s : AccelState) : List ℚ :=
  gsSolve (mkSystem dt contacts inp s) (contacts.map LagrangeMultiplier.value)

/-- `Fc += lambda[i]*JacF[i]` style accumulation over all constraints. -/
def jacSum (lam : List ℚ) (jac : ℕ → Vec3) (n : ℕ) : Vec3 :=
  ((List.range n).map (fun i => lam.getD i 0 • jac i)).foldl (· + ·) Vec3.zero

/-- The total contact force `Fc` of the resolver. -/
def frictionFc (dt : ℚ) (contacts : List LagrangeMultiplier) (inp : Inputs)
    (s : AccelState) : Vec3 :=
  jacSum (frictionLambda dt contacts inp s)
    (fun i => (contacts.getD i dummyLM).ForceJacobian) contacts.length

/-- The total contact moment `Mc` of the resolver. -/
def frictionMc (dt : ℚ) (contacts : List LagrangeMultiplier) (inp : Inputs)
    (s : AccelState) : Vec3 :=
  jacSum (frictionLambda dt contacts inp s)
    (fun i => (contacts.getD i dummyLM).MomentJacobian) contacts.length

/-- Writing the solved multipliers back into the constraints (the final
`(*it)->value = lambda[i++]` loop). -/
def writeBack : List LagrangeMultiplier → List ℚ → List LagrangeMultiplier
  | [], _ => []
  | cs, [] => cs
  | c :: cs, l :: ls => { c with value := l } :: writeBack cs ls

/-- `FGAccelerations::ResolveFrictionForces(dt)`: early return when no
constraint is active, otherwise solve for the multipliers, add `Fc/m` and
`Jinv*Mc` into the four rate-derivative fields (the translational increment
rotated by `Tb2i` for the inertial variant), and write the multipliers back. -/
def ResolveFrictionForces (dt : ℚ) (contacts : List LagrangeMultiplier)
    (inp : Inputs) (s : AccelState) : AccelState × List LagrangeMultiplier :=
  if contacts.length = 0 then (s, contacts)
  else
    let lam := frictionLambda dt contacts inp s
    let accel := (1 / inp.Mass) • frictionFc dt contacts inp s
    let omegadot := inp.Jinv.mulVec (frictionMc dt contacts inp s)
    ({ s with vUVWdot := s.vUVWdot + accel
            , vUVWidot := s.vUVWidot + inp.Tb2i.mulVec accel
            , vPQRdot := s.vPQRdot + omegadot
            , vPQRidot := s.vPQRidot + omegadot },
     writeBack contacts lam)

/-- `FGAccelerations::Run(Holding)`.  `baseRun` is the result of the base
class call `FGModel::Run(Holding)` (the rate-scheduling gate, external to
this file's sources): when it returns true the method returns true at once;
otherwise a holding state returns false without computing; otherwise the
three derivative computations and the friction resolve are executed and
false is returned. -/
def Run (Holding baseRun : Bool) (inp : Inputs) (contacts : List LagrangeMultiplier)
    (s : AccelState) : AccelState × List LagrangeMultiplier × Bool :=
  if baseRun then (s, contacts, true)
  else if Holding then (s, contacts, false)
  else
    let s1 := CalculatePQRdot inp s
    let s2 := CalculateUVWdot inp s1
    let s3 := CalculateQuatdot inp s2
    let r := ResolveFrictionForces (inp.DeltaT * (inp.rate : ℚ)) contacts inp s3
    (r.1, r.2, false)

/-- `FGAccelerations::InitModel`: zeroes `vPQRidot`, `vUVWidot`,
`vGravAccel`, `vBodyAccel` and resets `vQtrndot` with the Euler-angle
constructor `FGQuaternion(0,0,0)` (the identity quaternion). -/
def InitModel (s : AccelState) : AccelState :=
  { s with vPQRidot := Vec3.zero
         , vUVWidot := Vec3.zero
         , vGravAccel := Vec3.zero
         , vBodyAccel := Vec3.zero
         , vQtrndot := ⟨1, 0, 0, 0⟩ }

/-- The identity matrix, used in concrete evaluations. -/
def idMat : FGMatrix33 := ⟨⟨1, 0, 0⟩, ⟨0, 1, 0⟩, ⟨0, 0, 1⟩⟩

/-- A concrete input sample used in concrete evaluations of the theorems. -/
def inp0 : Inputs :=
  { Moment := ⟨0, 0, 0⟩, Force := ⟨0, 0, 0⟩
  , J := idMat, Jinv := idMat, Ti2b := idMat, Tb2i := idMat, Tl2b := idMat, Tec2b := idMat
  , qAttitudeECI := ⟨1, 0, 0, 0⟩
  , vPQRi := ⟨0, 0, 0⟩, vPQR := ⟨0, 0, 0⟩, vUVW := ⟨0, 0, 0⟩
  , vInertialPosition := ⟨0, 0, 0⟩, vOmegaPlanet := ⟨0, 0, 0⟩, J2Grav := ⟨0, 0, -32⟩
  , Mass := 1, GAccel := 32, DeltaT := 1 / 120, rate := 1
  , TerrainVelocity := ⟨0, 0, 0⟩, TerrainAngularVelocity := ⟨0, 0, 0⟩ }

/-- A concrete state sample (WGS84 gravity mode). -/
def s0 : AccelState :=
  { vPQRdot := ⟨0, 0, 0⟩, vPQRidot := ⟨0, 0, 0⟩
  , vUVWdot := ⟨0, 0, -32⟩, vUVWidot := ⟨0, 0, 0⟩
  , vGravAccel := ⟨0, 0, 0⟩, vBodyAccel := ⟨0, 0, 0⟩
  , vQtrndot := ⟨0, 0, 0, 0⟩, gravType := gtWGS84 }

/-- A concrete state sample in constant-gravity mode. -/
def s1 : AccelState := { s0 with gravType := gtStandard }

/-- A concrete state sample with an unrecognized gravity selector and a
nonzero previously stored gravity vector. -/
def s2 : AccelState := { s0 with gravType := 2, vGravAccel := ⟨1, 2, 3⟩ }

/-- A concrete downward contact constraint. -/
def c0 : LagrangeMultiplier :=
  { ForceJacobian := ⟨0, 0, -1⟩, MomentJacobian := ⟨0, 0, 0⟩
  , Min := 0, Max := 100, value := 0 }

/-! ### Small algebraic facts about the vector operations -/

theorem Vec3.smul_mk (r a b c : ℚ) : r • Vec3.mk a b c = ⟨r * a, r * b, r * c⟩ := rfl

theorem Vec3.add_mk (a b c d e f : ℚ) :
    Vec3.mk a b c + Vec3.mk d e f = ⟨a + d, b + e, c + f⟩ := rfl

theorem Vec3.sub_mk (a b c d e f : ℚ) :
    Vec3.mk a b c - Vec3.mk d e f = ⟨a - d, b - e, c - f⟩ := rfl

theorem Vec3.add_zero' (v : Vec3) : v + Vec3.zero = v := by
  cases v with
  | mk a b c => show Vec3.mk (a + 0) (b + 0) (c + 0) = Vec3.mk a b c; simp

theorem Vec3.smul_zero' (c : ℚ) : c • Vec3.zero = Vec3.zero := by
  show Vec3.mk (c * 0) (c * 0) (c * 0) = Vec3.zero
  simp [Vec3.zero]

theorem DotProduct_zero (u : Vec3) : DotProduct u Vec3.zero = 0 := by
  show u.x * 0 + u.y * 0 + u.z * 0 = 0
  ring

theorem FGMatrix33.mulVec_zero (M : FGMatrix33) : M.mulVec Vec3.zero = Vec3.zero := by
  show Vec3.mk (DotProduct M.r1 Vec3.zero) (DotProduct M.r2 Vec3.zero)
        (DotProduct M.r3 Vec3.zero) = Vec3.zero
  rw [DotProduct_zero, DotProduct_zero, DotProduct_zero]
  rfl

theorem resolve_nil_eq (dt : ℚ) (inp : Inputs) (s : AccelState) :
    ResolveFrictionForces dt [] inp s = (s, []) := rfl

theorem frictionFc_nil (dt : ℚ) (inp : Inputs) (s : AccelState) :
    frictionFc dt [] inp s = Vec3.zero := rfl

theorem frictionMc_nil (dt : ℚ) (inp : Inputs) (s : AccelState) :
    frictionMc dt [] inp s = Vec3.zero := rfl

/-! ### The claims -/

/-- Claim C1: `CalculatePQRdot` stores as the inertial-referenced
rotational-rate derivative exactly `Jinv (Moment - omega_i x (J omega_i))`,
and as the ECEF-referenced rotational-rate derivative exactly that value
minus `omega_i x (Ti2b OmegaPlanet)`. -/
theorem claim_C1_pqrdot (inp : Inputs) (s : AccelState) :
    (CalculatePQRdot inp s).vPQRidot =
      inp.Jinv.mulVec (inp.Moment - Vec3.cross inp.vPQRi (inp.J.mulVec inp.vPQRi)) ∧
    (CalculatePQRdot inp s).vPQRdot =
      (CalculatePQRdot inp s).vPQRidot -
        Vec3.cross inp.vPQRi (inp.Ti2b.mulVec inp.vOmegaPlanet) :=
  ⟨rfl, rfl⟩

/-- Claim C2: `CalculateUVWdot` stores as the ECEF-referenced translational
derivative exactly `Force/Mass` minus the Coriolis term
`(omega_ecef + 2 Ti2b OmegaPlanet) x vUVW` minus the centripetal term
`Ti2b (OmegaPlanet x (OmegaPlanet x r))` plus the gravity vector, and as the
inertial-referenced translational derivative exactly
`Tb2i (Force/Mass + gravity)`. -/
theorem claim_C2_uvwdot (inp : Inputs) (s : AccelState) :
    (CalculateUVWdot inp s).vUVWdot =
      Vec3.sdiv inp.Force inp.Mass -
        Vec3.cross (inp.vPQR + (2 : ℚ) • (inp.Ti2b.mulVec inp.vOmegaPlanet)) inp.vUVW -
        inp.Ti2b.mulVec
          (Vec3.cross inp.vOmegaPlanet (Vec3.cross inp.vOmegaPlanet inp.vInertialPosition)) +
        (CalculateUVWdot inp s).vGravAccel ∧
    (CalculateUVWdot inp s).vUVWidot =
      inp.Tb2i.mulVec (Vec3.sdiv inp.Force inp.Mass + (CalculateUVWdot inp s).vGravAccel) :=
  ⟨rfl, rfl⟩

/-- Claim C5: the resolver called with an empty constraint set returns the
state unchanged (all five derivative fields, and in fact every member) and
writes no multiplier. -/
theorem claim_C5_empty_resolve (dt : ℚ) (inp : Inputs) (s : AccelState) :
    ResolveFrictionForces dt [] inp s = (s, []) := rfl

/-- Claim C9: for every invocation of the resolver, the attitude derivative
quaternion, the stored gravity acceleration and the stored net body
acceleration are unchanged, and the four rate-derivative fields receive
exactly the increments `Fc/m` (translational, additionally rotated by `Tb2i`
for the inertial variant) and `Jinv Mc` (the same unrotated vector for both
rotational variants). -/
theorem claim_C9_resolver_increments (dt : ℚ) (contacts : List LagrangeMultiplier)
    (inp : Inputs) (s : AccelState) :
    (ResolveFrictionForces dt contacts inp s).1.vQtrndot = s.vQtrndot ∧
    (ResolveFrictionForces dt contacts inp s).1.vGravAccel = s.vGravAccel ∧
    (ResolveFrictionForces dt contacts inp s).1.vBodyAccel = s.vBodyAccel ∧
    (ResolveFrictionForces dt contacts inp s).1.vUVWdot =
      s.vUVWdot + (1 / inp.Mass) • frictionFc dt contacts inp s ∧
    (ResolveFrictionForces dt contacts inp s).1.vUVWidot =
      s.vUVWidot + inp.Tb2i.mulVec ((1 / inp.Mass) • frictionFc dt contacts inp s) ∧
    (ResolveFrictionForces dt contacts inp s).1.vPQRdot =
      s.vPQRdot + inp.Jinv.mulVec (frictionMc dt contacts inp s) ∧
    (ResolveFrictionForces dt contacts inp s).1.vPQRidot =
      s.vPQRidot + inp.Jinv.mulVec (frictionMc dt contacts inp s) := by
  cases contacts with
  | nil =>
      refine ⟨rfl, rfl, rfl, ?_, ?_, ?_, ?_⟩ <;>
        simp [resolve_nil_eq, frictionFc_nil, frictionMc_nil,
          Vec3.smul_zero', FGMatrix33.mulVec_zero, Vec3.add_zero']
  | cons c cs => exact ⟨rfl, rfl, rfl, rfl, rfl, rfl, rfl⟩

/-- Claim C6: when the persistent selector is the constant-gravity mode the
stored gravity acceleration is the local-level-to-body rotation applied to
`(0,0,GAccel)`; when it is the oblate-Earth mode it is the Earth-fixed-to-body
rotation applied to the externally supplied gravity vector; in both cases the
stored vector is the one added into the two translational derivatives. -/
theorem claim_C6_gravity_modes (inp : Inputs) (s : AccelState) :
    (s.gravType = gtStandard →
      (CalculateUVWdot inp s).vGravAccel = inp.Tl2b.mulVec ⟨0, 0, inp.GAccel⟩) ∧
    (s.gravType = gtWGS84 →
      (CalculateUVWdot inp s).vGravAccel = inp.Tec2b.mulVec inp.J2Grav) ∧
    (CalculateUVWdot inp s).vUVWdot =
      Vec3.sdiv inp.Force inp.Mass -
        Vec3.cross (inp.vPQR + (2 : ℚ) • (inp.Ti2b.mulVec inp.vOmegaPlanet)) inp.vUVW -
        inp.Ti2b.mulVec
          (Vec3.cross inp.vOmegaPlanet (Vec3.cross inp.vOmegaPlanet inp.vInertialPosition)) +
        (CalculateUVWdot inp s).vGravAccel ∧
    (CalculateUVWdot inp s).vUVWidot =
      inp.Tb2i.mulVec (Vec3.sdiv inp.Force inp.Mass + (CalculateUVWdot inp s).vGravAccel) := by
  refine ⟨?_, ?_, rfl, rfl⟩
  · intro h; simp [CalculateUVWdot, h]
  · intro h; simp [CalculateUVWdot, h, gtStandard, gtWGS84]

/-- Witness for claim C6 at concrete inputs: the constant-gravity branch at
`s1` and the oblate-Earth branch at `s0`. -/
theorem claim_C6_witness :
    (CalculateUVWdot inp0 s1).vGravAccel = inp0.Tl2b.mulVec ⟨0, 0, inp0.GAccel⟩ ∧
    (CalculateUVWdot inp0 s0).vGravAccel = inp0.Tec2b.mulVec inp0.J2Grav :=
  ⟨(claim_C6_gravity_modes inp0 s1).1 rfl, (claim_C6_gravity_modes inp0 s0).2.1 rfl⟩

/-- Claim C10: with an unrecognized gravity selector (neither `gtStandard`
nor `gtWGS84`), `CalculateUVWdot` performs no fallback: the stored gravity
vector keeps its value from the previous evaluation and that stale vector is
still added into both translational derivatives. -/
theorem claim_C10_stale_gravity (inp : Inputs) (s : AccelState)
    (h0 : s.gravType ≠ gtStandard) (h1 : s.gravType ≠ gtWGS84) :
    (CalculateUVWdot inp s).vGravAccel = s.vGravAccel ∧
    (CalculateUVWdot inp s).vUVWdot =
      Vec3.sdiv inp.Force inp.Mass -
        Vec3.cross (inp.vPQR + (2 : ℚ) • (inp.Ti2b.mulVec inp.vOmegaPlanet)) inp.vUVW -
        inp.Ti2b.mulVec
          (Vec3.cross inp.vOmegaPlanet (Vec3.cross inp.vOmegaPlanet inp.vInertialPosition)) +
        s.vGravAccel ∧
    (CalculateUVWdot inp s).vUVWidot =
      inp.Tb2i.mulVec (Vec3.sdiv inp.Force inp.Mass + s.vGravAccel) := by
  refine ⟨?_, ?_, ?_⟩ <;> simp [CalculateUVWdot, h0, h1]

/-- Witness for claim C10 at a concrete state with selector 2 and stored
gravity `(1,2,3)`. -/
theorem claim_C10_witness :
    (CalculateUVWdot inp0 s2).vGravAccel = s2.vGravAccel ∧
    (CalculateUVWdot inp0 s2).vUVWdot =
      Vec3.sdiv inp0.Force inp0.Mass -
        Vec3.cross (inp0.vPQR + (2 : ℚ) • (inp0.Ti2b.mulVec inp0.vOmegaPlanet)) inp0.vUVW -
        inp0.Ti2b.mulVec
          (Vec3.cross inp0.vOmegaPlanet (Vec3.cross inp0.vOmegaPlanet inp0.vInertialPosition)) +
        s2.vGravAccel ∧
    (CalculateUVWdot inp0 s2).vUVWidot =
      inp0.Tb2i.mulVec (Vec3.sdiv inp0.Force inp0.Mass + s2.vGravAccel) :=
  claim_C10_stale_gravity inp0 s2 (by decide) (by decide)

/-- Counterexample for claim C7 as stated: under a set holding flag the
return value of `Run` is not a fixed "no work was done" report.  At the very
same state it is `true` when the base-class rate gate fires and `false`
otherwise, and the latter `false` is exactly the value returned by a full
computing run, so the return value carries no "no work" information. -/
theorem claim_C7_counterexample :
    (Run true true inp0 [] s0).2.2 = true ∧
    (Run true false inp0 [] s0).2.2 = false ∧
    (Run false false inp0 [] s0).2.2 = false := by
  refine ⟨rfl, rfl, ?_⟩
  rfl

/-- Claim C7 amended: with the holding flag set, `Run` skips all computation
(the state and the constraints are returned untouched, so no kinematics,
attitude or contact-resolver call happens and no derivative field changes);
its boolean result is the base-class scheduling gate's value (`true` when the
base class already skipped, `false` otherwise) rather than a dedicated
"no work done" report. -/
theorem claim_C7_holding_skips (b : Bool) (inp : Inputs)
    (contacts : List LagrangeMultiplier) (s : AccelState) :
    Run true b inp contacts s = (s, contacts, b) := by
  cases b <;> rfl

/-- Claim C3: the resolver solves for the multipliers by projected
Gauss-Seidel.  The first conjunct ties the resolver to the solver: for a
nonempty contact set the written-back multipliers are the result of
`gsLoop` over the assembled system with fuel 50 (hence at most 50 sweeps),
warm-started from the constraints' current values.  The remaining conjuncts
characterize the solver: the fuel-0 loop returns its argument; each
iteration performs one sweep and exits early exactly when the accumulated
sum of absolute per-component changes is strictly below `1e-5`; a sweep
processes indices `0..n-1` in order; and each index update clamps
`lambda0 + (rhs_i - sum_j anorm_i_j * lambda_j)` to `[lmin_i, lmax_i]`,
passing the updated list (in place) to the remaining indices of the same
sweep and adding the absolute change to the running norm. -/
theorem claim_C3_projected_gauss_seidel (dt : ℚ) (contacts : List LagrangeMultiplier)
    (inp : Inputs) (s : AccelState) :
    (ResolveFrictionForces dt contacts inp s).2 =
      (if contacts.length = 0 then contacts
       else writeBack contacts
         (gsLoop (mkSystem dt contacts inp s) 50 (contacts.map LagrangeMultiplier.value))) ∧
    (∀ (S : GSSystem) (lam : List ℚ), gsLoop S 0 lam = lam) ∧
    (∀ (S : GSSystem) (fuel : ℕ) (lam : List ℚ),
      gsLoop S (fuel + 1) lam =
        if (gsSweep S lam).2 < 1 / 100000 then (gsSweep S lam).1
        else gsLoop S fuel (gsSweep S lam).1) ∧
    (∀ (S : GSSystem) (lam : List ℚ), gsSweep S lam = sweepGo S (List.range S.n) lam 0) ∧
    (∀ (S : GSSystem) (i : ℕ) (is : List ℕ) (lam : List ℚ) (nrm : ℚ),
      sweepGo S (i :: is) lam nrm =
        sweepGo S is
          (lam.set i (Constrain (S.lmin i)
            (lam.getD i 0 +
              (S.rhs i - ((List.range S.n).map (fun j => S.anorm i j * lam.getD j 0)).sum))
            (S.lmax i)))
          (nrm + |Constrain (S.lmin i)
            (lam.getD i 0 +
              (S.rhs i - ((List.range S.n).map (fun j => S.anorm i j * lam.getD j 0)).sum))
            (S.lmax i) - lam.getD i 0|)) := by
  refine ⟨?_, fun S lam => rfl, fun S fuel lam => rfl, fun S lam => rfl,
    fun S i is lam nrm => rfl⟩
  by_cases h : contacts.length = 0
  · simp [ResolveFrictionForces, h]
  · simp [ResolveFrictionForces, h, frictionLambda, gsSolve]

/-! ### One-dimensional behaviour of the solver (claim C4) -/

theorem range_one_eq : List.range 1 = [0] := rfl

/-- For a one-constraint system with normalized diagonal 1, a sweep from
`[x]` produces the clamped right-hand side (warm-start independent). -/
theorem gsSweep_one (S : GSSystem) (hn : S.n = 1) (hd : S.anorm 0 0 = 1) (x : ℚ) :
    gsSweep S [x] =
      ([Constrain (S.lmin 0) (S.rhs 0) (S.lmax 0)],
       |Constrain (S.lmin 0) (S.rhs 0) (S.lmax 0) - x|) := by
  have hr1 : List.range S.n = [0] := by rw [hn, range_one_eq]
  unfold gsSweep
  rw [hr1]
  simp only [sweepGo]
  rw [hr1]
  simp only [List.map_cons, List.map_nil, List.sum_cons, List.sum_nil,
    List.getD_cons_zero, List.set_cons_zero, hd, one_mul, add_zero, zero_add]
  have harg : x + (S.rhs 0 - x) = S.rhs 0 := by ring
  rw [harg]

/-- For a one-constraint system with normalized diagonal 1, the solved
multiplier after any positive fuel is the clamped right-hand side. -/
theorem gsLoop_one (S : GSSystem) (hn : S.n = 1) (hd : S.anorm 0 0 = 1)
    (fuel : ℕ) (v : ℚ) :
    gsLoop S (fuel + 1) [v] = [Constrain (S.lmin 0) (S.rhs 0) (S.lmax 0)] := by
  have hfix : ∀ f, gsLoop S f [Constrain (S.lmin 0) (S.rhs 0) (S.lmax 0)] =
      [Constrain (S.lmin 0) (S.rhs 0) (S.lmax 0)] := by
    intro f
    cases f with
    | zero => rfl
    | succ f =>
        simp only [gsLoop, gsSweep_one S hn hd]
        rw [if_pos]
        rw [sub_self, abs_zero]
        norm_num
  simp only [gsLoop, gsSweep_one S hn hd]
  by_cases h : |Constrain (S.lmin 0) (S.rhs 0) (S.lmax 0) - v| < 1 / 100000
  · rw [if_pos h]
  · rw [if_neg h, hfix]

/-- Claim C4: for a single contact constraint and `dt = 0`, writing
`A = JacF.(JacF/m) + JacM.(Jinv JacM)` (nonsingular), the multiplier the
resolver writes back is exactly
`Constrain Min (-(JacF.vUVWdot + JacM.vPQRdot)/A) Max`: the value cancelling
the pre-contact relative acceleration along the constraint direction,
clamped to the bounds.  At `dt = 0` only the current accelerations
`vUVWdot`/`vPQRdot` enter the target: no velocity-correction term appears. -/
theorem claim_C4_single_contact (inp : Inputs) (s : AccelState) (c : LagrangeMultiplier)
    (hA : DotProduct c.ForceJacobian ((1 / inp.Mass) • c.ForceJacobian) +
          DotProduct c.MomentJacobian (inp.Jinv.mulVec c.MomentJacobian) ≠ 0) :
    (ResolveFrictionForces 0 [c] inp s).2 =
      [{ c with value := (Constrain c.Min
          (-(DotProduct c.ForceJacobian s.vUVWdot + DotProduct c.MomentJacobian s.vPQRdot) /
            (DotProduct c.ForceJacobian ((1 / inp.Mass) • c.ForceJacobian) +
             DotProduct c.MomentJacobian (inp.Jinv.mulVec c.MomentJacobian)))
          c.Max) }] := by
  have h2 : (ResolveFrictionForces 0 [c] inp s).2 =
      writeBack [c] (gsLoop (mkSystem 0 [c] inp s) 50 [c.value]) := by
    simp [ResolveFrictionForces, frictionLambda, gsSolve]
  set S := mkSystem 0 [c] inp s with hS
  set A := DotProduct c.ForceJacobian ((1 / inp.Mass) • c.ForceJacobian) +
      DotProduct c.MomentJacobian (inp.Jinv.mulVec c.MomentJacobian) with hAdef
  have hn : S.n = 1 := rfl
  have haE : S.anorm 0 0 = A * (1 / A) := rfl
  have hd : S.anorm 0 0 = 1 := by rw [haE, mul_one_div_cancel hA]
  have hrhs : S.rhs 0 =
      -(DotProduct c.ForceJacobian s.vUVWdot + DotProduct c.MomentJacobian s.vPQRdot) *
        (1 / A) := by
    show -(DotProduct c.ForceJacobian (if (0 : ℚ) > 0 then _ else s.vUVWdot) +
          DotProduct c.MomentJacobian (if (0 : ℚ) > 0 then _ else s.vPQRdot)) * (1 / A) = _
    rw [if_neg (lt_irrefl (0 : ℚ)), if_neg (lt_irrefl (0 : ℚ))]
  rw [h2, gsLoop_one S hn hd 49 c.value, hrhs]
  have hmin : S.lmin 0 = c.Min := rfl
  have hmax : S.lmax 0 = c.Max := rfl
  rw [hmin, hmax, mul_one_div]
  rfl

/-- Witness for claim C4: the resolver evaluated at the concrete downward
contact `c0` (effective mass `A = 1`). -/
theorem claim_C4_witness :
    (ResolveFrictionForces 0 [c0] inp0 s0).2 =
      [{ c0 with value := (Constrain c0.Min
          (-(DotProduct c0.ForceJacobian s0.vUVWdot + DotProduct c0.MomentJacobian s0.vPQRdot) /
            (DotProduct c0.ForceJacobian ((1 / inp0.Mass) • c0.ForceJacobian) +
             DotProduct c0.MomentJacobian (inp0.Jinv.mulVec c0.MomentJacobian)))
          c0.Max) }] :=
  claim_C4_single_contact inp0 s0 c0
    (by norm_num [c0, inp0, idMat, DotProduct, FGMatrix33.mulVec, Vec3.smul_mk])

/-! ### Invariant machinery for claim C8: every written-back multiplier is
within its constraint's bounds, because the write-back always happens after
a full clamping sweep. -/

theorem getD_set_self {α : Type} (l : List α) (i : ℕ) (x d : α) (h : i < l.length) :
    (l.set i x).getD i d = x := by
  induction l generalizing i with
  | nil => simp at h
  | cons a t ih =>
      cases i with
      | zero => rfl
      | succ i =>
          rw [List.set_cons_succ, List.getD_cons_succ]
          exact ih i (by simpa using h)

theorem getD_set_ne {α : Type} (l : List α) (i j : ℕ) (x d : α) (h : i ≠ j) :
    (l.set j x).getD i d = l.getD i d := by
  induction l generalizing i j with
  | nil => rfl
  | cons a t ih =>
      cases j with
      | zero =>
          cases i with
          | zero => exact absurd rfl h
          | succ i => rfl
      | succ j =>
          cases i with
          | zero => rfl
          | succ i =>
              rw [List.set_cons_succ, List.getD_cons_succ, List.getD_cons_succ]
              exact ih i j (fun hh => h (by rw [hh]))

theorem getD_mem {α : Type} (l : List α) (i : ℕ) (d : α) (h : i < l.length) :
    l.getD i d ∈ l := by
  induction l generalizing i with
  | nil => simp at h
  | cons a t ih =>
      cases i with
      | zero => exact List.mem_cons_self a t
      | succ i =>
          rw [List.getD_cons_succ]
          exact List.mem_cons_of_mem a (ih i (by simpa using h))

theorem constrain_bounds (lo v hi : ℚ) (h : lo ≤ hi) :
    lo ≤ Constrain lo v hi ∧ Constrain lo v hi ≤ hi := by
  unfold Constrain
  split_ifs with h1 h2
  · exact ⟨le_refl lo, h⟩
  · exact ⟨h, le_refl hi⟩
  · exact ⟨le_of_not_lt h1, le_of_not_lt h2⟩

theorem sweepGo_length (S : GSSystem) (is : List ℕ) :
    ∀ (lam : List ℚ) (nrm : ℚ), (sweepGo S is lam nrm).1.length = lam.length := by
  induction is with
  | nil => intro lam nrm; rfl
  | cons i is ih =>
      intro lam nrm
      simp only [sweepGo]
      rw [ih, List.length_set]

theorem sweepGo_getD_not_mem (S : GSSystem) (is : List ℕ) :
    ∀ (lam : List ℚ) (nrm : ℚ) (i : ℕ), i ∉ is →
      (sweepGo S is lam nrm).1.getD i 0 = lam.getD i 0 := by
  induction is with
  | nil => intro lam nrm i _; rfl
  | cons j is ih =>
      intro lam nrm i hi
      have h1 : i ≠ j := fun h => hi (h ▸ List.mem_cons_self j is)
      have h2 : i ∉ is := fun h => hi (List.mem_cons_of_mem j h)
      simp only [sweepGo]
      rw [ih _ _ _ h2, getD_set_ne _ _ _ _ _ h1]

theorem sweepGo_bounds (S : GSSystem) (is : List ℕ) :
    ∀ (lam : List ℚ) (nrm : ℚ) (i : ℕ), is.Nodup → i ∈ is → i < lam.length →
      S.lmin i ≤ S.lmax i →
      S.lmin i ≤ (sweepGo S is lam nrm).1.getD i 0 ∧
      (sweepGo S is lam nrm).1.getD i 0 ≤ S.lmax i := by
  induction is with
  | nil => intro lam nrm i _ hi; exact absurd hi (List.not_mem_nil i)
  | cons j is ih =>
      intro lam nrm i hnd hi hlen hb
      obtain ⟨hj, hnd'⟩ := List.nodup_cons.mp hnd
      rcases List.mem_cons.mp hi with he | hi'
      · subst he
        simp only [sweepGo]
        rw [sweepGo_getD_not_mem S is _ _ _ hj, getD_set_self _ _ _ _ hlen]
        exact constrain_bounds _ _ _ hb
      · simp only [sweepGo]
        exact ih _ _ _ hnd' hi' (by rw [List.length_set]; exact hlen) hb

theorem gsSweep_length (S : GSSystem) (lam : List ℚ) :
    (gsSweep S lam).1.length = lam.length :=
  sweepGo_length S _ lam 0

theorem gsSweep_bounds (S : GSSystem) (lam : List ℚ) (i : ℕ) (hin : i < S.n)
    (hlen : i < lam.length) (hbi : S.lmin i ≤ S.lmax i) :
    S.lmin i ≤ (gsSweep S lam).1.getD i 0 ∧ (gsSweep S lam).1.getD i 0 ≤ S.lmax i :=
  sweepGo_bounds S (List.range S.n) lam 0 i (List.nodup_range _)
    (List.mem_range.mpr hin) hlen hbi

theorem gsLoop_succ_eq (S : GSSystem) (f : ℕ) (lam : List ℚ) :
    gsLoop S (f + 1) lam =
      if (gsSweep S lam).2 < 1 / 100000 then (gsSweep S lam).1
      else gsLoop S f (gsSweep S lam).1 := rfl

/-- The result of a positive-fuel Gauss-Seidel loop is always the output of
some final sweep (of the same length as the input). -/
theorem gsLoop_succ_sweep (S : GSSystem) (k : ℕ) :
    ∀ lam : List ℚ, ∃ lam0 : List ℚ, lam0.length = lam.length ∧
      gsLoop S (k + 1) lam = (gsSweep S lam0).1 := by
  induction k with
  | zero =>
      intro lam
      refine ⟨lam, rfl, ?_⟩
      rw [gsLoop_succ_eq]
      split_ifs <;> rfl
  | succ k ih =>
      intro lam
      by_cases h : (gsSweep S lam).2 < 1 / 100000
      · exact ⟨lam, rfl, by rw [gsLoop_succ_eq, if_pos h]⟩
      · obtain ⟨lam0, hl, he⟩ := ih (gsSweep S lam).1
        refine ⟨lam0, ?_, ?_⟩
        · rw [hl, gsSweep_length]
        · rw [gsLoop_succ_eq, if_neg h]
          exact he

theorem writeBack_length (cs : List LagrangeMultiplier) :
    ∀ ls : List ℚ, (writeBack cs ls).length = cs.length := by
  induction cs with
  | nil => intro ls; cases ls <;> rfl
  | cons c cs ih =>
      intro ls
      cases ls with
      | nil => rfl
      | cons l ls => simpa [writeBack] using ih ls

theorem writeBack_bounded (cs : List LagrangeMultiplier) :
    ∀ ls : List ℚ, ls.length = cs.length →
      (∀ i, i < cs.length →
        (cs.getD i dummyLM).Min ≤ ls.getD i 0 ∧ ls.getD i 0 ≤ (cs.getD i dummyLM).Max) →
      ∀ c' ∈ writeBack cs ls, c'.Min ≤ c'.value ∧ c'.value ≤ c'.Max := by
  induction cs with
  | nil =>
      intro ls _ _ c' hc'
      cases ls <;> exact absurd hc' (List.not_mem_nil c')
  | cons c cs ih =>
      intro ls hlen hpt c' hc'
      cases ls with
      | nil => simp at hlen
      | cons l ls =>
          rw [show writeBack (c :: cs) (l :: ls) =
                { c with value := l } :: writeBack cs ls from rfl] at hc'
          rcases List.mem_cons.mp hc' with he | hm
          · rw [he]
            simpa using hpt 0 (Nat.succ_pos _)
          · exact ih ls (by simpa using hlen)
              (fun i hi => by simpa using hpt (i + 1) (Nat.succ_lt_succ hi)) c' hm

/-- Claim C8: whenever the resolver runs on a nonempty contact set (with
well-formed bounds `Min <= Max`), every multiplier it writes back lies in
`[Min, Max]` of its constraint, regardless of the warm-start values: the
solver performs at least one clamping sweep before the write-back. -/
theorem claim_C8_written_multipliers_within_bounds (dt : ℚ)
    (contacts : List LagrangeMultiplier) (inp : Inputs) (s : AccelState)
    (hne : contacts ≠ [])
    (hb : ∀ c ∈ contacts, c.Min ≤ c.Max) :
    ∀ c' ∈ (ResolveFrictionForces dt contacts inp s).2,
      c'.Min ≤ c'.value ∧ c'.value ≤ c'.Max := by
  have hlen0 : ¬contacts.length = 0 := by simpa [List.length_eq_zero] using hne
  have h2 : (ResolveFrictionForces dt contacts inp s).2 =
      writeBack contacts (frictionLambda dt contacts inp s) := by
    simp [ResolveFrictionForces, hlen0]
  rw [h2]
  obtain ⟨lam0, hl0, he⟩ := gsLoop_succ_sweep (mkSystem dt contacts inp s) 49
    (contacts.map LagrangeMultiplier.value)
  have hfl : frictionLambda dt contacts inp s =
      (gsSweep (mkSystem dt contacts inp s) lam0).1 := he
  have hlam0 : lam0.length = contacts.length := by rw [hl0, List.length_map]
  apply writeBack_bounded
  · rw [hfl, gsSweep_length, hlam0]
  · intro i hi
    rw [hfl]
    have hbi : (mkSystem dt contacts inp s).lmin i ≤ (mkSystem dt contacts inp s).lmax i :=
      hb _ (getD_mem contacts i dummyLM hi)
    exact gsSweep_bounds (mkSystem dt contacts inp s) lam0 i hi
      (by rw [hlam0]; exact hi) hbi

/-- Witness for claim C8: the single multiplier written back for the
concrete contact `c0` lies within its bounds. -/
theorem claim_C8_witness :
    ((ResolveFrictionForces 0 [c0] inp0 s0).2.getD 0 dummyLM).Min ≤
      ((ResolveFrictionForces 0 [c0] inp0 s0).2.getD 0 dummyLM).value ∧
    ((ResolveFrictionForces 0 [c0] inp0 s0).2.getD 0 dummyLM).value ≤
      ((ResolveFrictionForces 0 [c0] inp0 s0).2.getD 0 dummyLM).Max := by
  have h2 : (ResolveFrictionForces 0 [c0] inp0 s0).2 =
      writeBack [c0] (frictionLambda 0 [c0] inp0 s0) := by
    simp [ResolveFrictionForces]
  have hlen : (ResolveFrictionForces 0 [c0] inp0 s0).2.length = 1 := by
    rw [h2, writeBack_length]
    rfl
  exact claim_C8_written_multipliers_within_bounds 0 [c0] inp0 s0 (by simp)
    (fun c hc => by rw [List.mem_singleton.mp hc]; norm_num [c0])
    _ (getD_mem _ 0 dummyLM (by rw [hlen]; norm_num))

end JSBSim
